import Mathlib

/-!
Verification of the financial-planner frontend (fplan_v2/frontend) against its
specification. Each claim about the code is formalised over a shallow embedding
of the relevant TypeScript: data shapes follow `src/api/types.ts`, component
logic is translated function by function, JS numbers are modelled as `ℚ`, and
`string | null` fields as `Option String`. The backend projection engine is not
part of the shipped sources; the fixed-loan annuity calculator is therefore
modelled from the spec (see the doc comments in the loan section).
-/

set_option autoImplicit false

namespace FPlan

/-! ## Data model (from `src/fplan_v2/frontend/src/api/types.ts`) -/

/-- `TimeSeriesDataPoint` from api/types.ts: `{ date: string; value: number }`. -/
structure TimeSeriesDataPoint where
  date : String
  value : ℚ
deriving DecidableEq, Repr

/-- `CashFlowItem` from api/types.ts. -/
structure CashFlowItem where
  source_name : String
  source_type : String
  category : String
  time_series : List TimeSeriesDataPoint
  entity_id : Option Int
  entity_type : Option String
deriving DecidableEq, Repr

/-- `CashFlowBreakdown` from api/types.ts. -/
structure CashFlowBreakdown where
  items : List CashFlowItem
  total_income_series : List TimeSeriesDataPoint
  total_expense_series : List TimeSeriesDataPoint
  net_series : List TimeSeriesDataPoint
deriving DecidableEq, Repr

/-- `CashFlowType` from api/types.ts: `'deposit' | 'withdrawal'`. -/
inductive CashFlowType
  | deposit
  | withdrawal
deriving DecidableEq, Repr

/-- `CashFlowResponse` from api/types.ts (ids as `Int`, amounts as `ℚ`). -/
structure CashFlowResponse where
  id : Int
  user_id : Int
  flow_type : CashFlowType
  target_asset_id : Option Int
  name : String
  amount : ℚ
  from_date : String
  to_date : String
  from_own_capital : Bool
deriving DecidableEq, Repr

/-- The fields of `RevenueStreamResponse` used by the unified table. -/
structure RevenueStreamResponse where
  id : Int
  name : String
  start_date : String
  end_date : Option String
  amount : ℚ
  asset_id : Option Int
deriving DecidableEq, Repr

/-- The fields of `AssetResponse` used by the asset list. -/
structure AssetResponse where
  id : Int
  name : String
  asset_type : String
  sell_date : Option String
deriving DecidableEq, Repr

/-- The fields of `LoanResponse` used by the loan form. -/
structure LoanResponse where
  id : Int
  loan_type : String
  name : String
  start_date : String
  original_value : ℚ
  interest_rate_annual_pct : ℚ
  duration_months : Int
  collateral_asset_id : Option Int
  current_balance : Option ℚ
deriving DecidableEq, Repr

/-- `ProjectionRequest` from api/types.ts: every field optional. -/
structure ProjectionRequest where
  start_date : Option String := none
  end_date : Option String := none
  as_of_date : Option String := none
  include_scenarios : Option Bool := none
  scenario_ids : Option (List Int) := none
deriving DecidableEq, Repr

/-! ## Asset list (`features/assets/asset-list.tsx`)

`hasSellDate` (lines 75-77):
`return !!asset.sell_date && asset.sell_date !== '2100-01-01';`
JS truthiness makes both `null` and the empty string falsy. -/

/-- JS truthiness of a `string | null` value: `null` and `""` are falsy. -/
def strTruthy : Option String → Bool
  | none => false
  | some s => !s.isEmpty

/-- `hasSellDate` from asset-list.tsx:
`!!asset.sell_date && asset.sell_date !== '2100-01-01'`. -/
def hasSellDate (asset : AssetResponse) : Bool :=
  strTruthy asset.sell_date && decide (asset.sell_date ≠ some "2100-01-01")

/-- An asset whose `sell_date` is the empty string: non-null and not the
sentinel, yet JS truthiness classifies it as having no sell date. -/
def emptySellDateAsset : AssetResponse :=
  { id := 1, name := "apt", asset_type := "real_estate", sell_date := some "" }

/-! ## Net-worth chart merge (`features/projections/chart-tooltip.tsx`)

`NetWorthChart` (lines 146-151) builds its rows positionally:
`netWorth.map((point, i) => ({ date: formatChartDate(point.date),
netWorth: point.value, assets: totalAssets[i]?.value ?? 0,
liabilities: totalLiabilities[i]?.value ?? 0 }))`.
`formatChartDate` (JS `Date` formatting) is kept abstract as a parameter. -/

/-- One merged chart row of `NetWorthChart`. -/
structure MergedData where
  date : String
  netWorth : ℚ
  assets : ℚ
  liabilities : ℚ
deriving DecidableEq, Repr

/-- `series[i]?.value ?? 0`: the value at index `i`, or `0` out of range. -/
def valueAtIdxOr0 (series : List TimeSeriesDataPoint) (i : Nat) : ℚ :=
  (series[i]?.map TimeSeriesDataPoint.value).getD 0

/-- The indexed `.map` callback of the merge, with `i` the running index. -/
def mergeRowsAux (fmt : String → String)
    (totalAssets totalLiabilities : List TimeSeriesDataPoint) :
    Nat → List TimeSeriesDataPoint → List MergedData
  | _, [] => []
  | i, point :: rest =>
    { date := fmt point.date
      netWorth := point.value
      assets := valueAtIdxOr0 totalAssets i
      liabilities := valueAtIdxOr0 totalLiabilities i }
      :: mergeRowsAux fmt totalAssets totalLiabilities (i + 1) rest

/-- `merged` from `NetWorthChart`: the positional three-series merge. -/
def mergeRows (fmt : String → String)
    (netWorth totalAssets totalLiabilities : List TimeSeriesDataPoint) :
    List MergedData :=
  mergeRowsAux fmt totalAssets totalLiabilities 0 netWorth

/-! ## Unified cash-flow table (`features/cash-flows/unified-cash-flow-table.tsx`)

The `rows` useMemo builds, in order: income rows from revenue streams
(skipping `amount <= 0`), deposit/withdrawal rows from cash flows (skipping
employer deposits, i.e. `flow_type === 'deposit' && !from_own_capital`), and
loan-payment rows from breakdown items (keeping only `category ===
'loan_payment'`). Date formatting and the asset-name lookup are kept abstract
as parameters. -/

/-- `RowKind` from unified-cash-flow-table.tsx. -/
inductive RowKind
  | income
  | deposit
  | withdrawal
  | loan_payment
deriving DecidableEq, Repr

/-- Row keys: models the `rs-${id}` / `cf-${id}` / `proj-${source_name}`
template strings (the three string prefixes are disjoint, so a structured
sum is a faithful rendering). -/
inductive RowKey
  | rs (id : Int)
  | cf (id : Int)
  | proj (source_name : String)
deriving DecidableEq, Repr

/-- Whether a row key is a cash-flow key `cf-${id}`. -/
def RowKey.isCf : RowKey → Bool
  | .cf _ => true
  | _ => false

/-- `UnifiedRow` from unified-cash-flow-table.tsx (`amount: number | null`). -/
structure UnifiedRow where
  key : RowKey
  name : String
  kind : RowKind
  amount : Option ℚ
  linkedAsset : String
  period : String
deriving DecidableEq, Repr

/-- The revenue-stream loop of `rows`: `if (stream.amount <= 0) continue;`. -/
def revenueRows (fmtDate : String → String) (assetName : Option Int → String) :
    List RevenueStreamResponse → List UnifiedRow
  | [] => []
  | s :: rest =>
    if s.amount ≤ 0 then revenueRows fmtDate assetName rest
    else
      { key := .rs s.id
        name := s.name
        kind := .income
        amount := some s.amount
        linkedAsset := assetName s.asset_id
        period := fmtDate s.start_date ++ " → " ++
          (match s.end_date with | some e => fmtDate e | none => "—") }
        :: revenueRows fmtDate assetName rest

/-- The row pushed for one retained cash flow. -/
def cashFlowRow (fmtDate : String → String) (assetName : Option Int → String)
    (cf : CashFlowResponse) : UnifiedRow :=
  { key := .cf cf.id
    name := cf.name
    kind := match cf.flow_type with
      | .deposit => .deposit
      | .withdrawal => .withdrawal
    amount := some cf.amount
    linkedAsset := assetName cf.target_asset_id
    period := fmtDate cf.from_date ++ " → " ++ fmtDate cf.to_date }

/-- The cash-flow loop of `rows`:
`if (cf.flow_type === 'deposit' && !cf.from_own_capital) continue;`. -/
def cashFlowRowsLoop (fmtDate : String → String)
    (assetName : Option Int → String) :
    List CashFlowResponse → List UnifiedRow
  | [] => []
  | cf :: rest =>
    if cf.flow_type = .deposit ∧ cf.from_own_capital = false then
      cashFlowRowsLoop fmtDate assetName rest
    else cashFlowRow fmtDate assetName cf :: cashFlowRowsLoop fmtDate assetName rest

/-- The breakdown-item loop of `rows`:
`if (item.category !== 'loan_payment') continue;`. -/
def breakdownRows : List CashFlowItem → List UnifiedRow
  | [] => []
  | item :: rest =>
    if item.category ≠ "loan_payment" then breakdownRows rest
    else
      { key := .proj item.source_name
        name := item.source_name
        kind := .loan_payment
        amount := none
        linkedAsset := "—"
        period := "—" }
        :: breakdownRows rest

/-- The full `rows` list of `UnifiedCashFlowTable`. -/
def unifiedRows (fmtDate : String → String) (assetName : Option Int → String)
    (revenueStreams : List RevenueStreamResponse)
    (cashFlows : List CashFlowResponse)
    (breakdownItems : List CashFlowItem) : List UnifiedRow :=
  revenueRows fmtDate assetName revenueStreams ++
    cashFlowRowsLoop fmtDate assetName cashFlows ++
    breakdownRows breakdownItems

/-! ## Loan form (`features/loans/loan-form.tsx`)

`loanSchema` (lines 35-43) and `onSubmit` (lines 113-145). The zod schema
runs before `onSubmit` (react-hook-form's resolver), so an invalid value set
never reaches the mutation. JS number parsing of the collateral id string is
kept abstract as a parameter. -/

/-- The raw values held by the loan form (`LoanFormValues`). -/
structure LoanFormValues where
  loan_type : String
  name : String
  start_date : String
  original_value : ℚ
  interest_rate_annual_pct : ℚ
  duration_months : ℚ
  collateral_asset_id : Option String
deriving DecidableEq, Repr

/-- `loanSchema`: `z.object({ loan_type: z.string().min(1), name:
z.string().min(1), start_date: z.string().min(1), original_value:
z.number().min(0), interest_rate_annual_pct: z.number().min(0),
duration_months: z.number().int().min(1), collateral_asset_id:
z.string().optional() })`. An integer JS number is a rational with
denominator 1. -/
def loanSchemaCheck (v : LoanFormValues) : Bool :=
  decide (1 ≤ v.loan_type.length) && decide (1 ≤ v.name.length) &&
    decide (1 ≤ v.start_date.length) && decide (0 ≤ v.original_value) &&
    decide (0 ≤ v.interest_rate_annual_pct) &&
    decide (v.duration_months.den = 1) && decide (1 ≤ v.duration_months)

/-- JSON body of a loan update request (`PUT /api/loans/{id}`): a key absent
from the object literal is `none`. The TS `LoanUpdate` type can carry `name`,
`current_balance`, `interest_rate_annual_pct`, `config_json`; the remaining
fields appear only in `LoanCreate` and are listed here so the frame claim can
say they are never sent on update. -/
structure LoanUpdateBody where
  name : Option String := none
  current_balance : Option ℚ := none
  interest_rate_annual_pct : Option ℚ := none
  loan_type : Option String := none
  start_date : Option String := none
  original_value : Option ℚ := none
  duration_months : Option ℚ := none
  collateral_asset_id : Option (Option Int) := none
deriving DecidableEq, Repr

/-- JSON body of a loan create request (`POST /api/loans/`), as built by
`onSubmit` (the hook adds `external_id` separately). -/
structure LoanCreateBody where
  loan_type : String
  name : String
  start_date : String
  original_value : ℚ
  interest_rate_annual_pct : ℚ
  duration_months : ℚ
  collateral_asset_id : Option Int
deriving DecidableEq, Repr

/-- The API request issued by the loan form's `onSubmit`. -/
inductive LoanApiRequest
  | update (id : Int) (body : LoanUpdateBody)
  | create (body : LoanCreateBody)
deriving DecidableEq, Repr

/-- `NONE_VALUE` from loan-form.tsx. -/
def NONE_VALUE : String := "__none__"

/-- `onSubmit` (lines 113-145): when editing (`isEditing = !!loan`) it sends
`updateMutation` with `{ name, interest_rate_annual_pct }`; otherwise it
sends `createMutation` with the full field set. `collateralId` is
`values.collateral_asset_id && values.collateral_asset_id !== NONE_VALUE ?
Number(...) : null` (JS truthiness: empty string is falsy). -/
def loanFormOnSubmit (parseNum : String → Int) (loan : Option LoanResponse)
    (values : LoanFormValues) : LoanApiRequest :=
  let collateralId : Option Int :=
    match values.collateral_asset_id with
    | some s => if s ≠ "" ∧ s ≠ NONE_VALUE then some (parseNum s) else none
    | none => none
  match loan with
  | some l =>
    .update l.id
      { name := some values.name
        interest_rate_annual_pct := some values.interest_rate_annual_pct }
  | none =>
    .create
      { loan_type := values.loan_type
        name := values.name
        start_date := values.start_date
        original_value := values.original_value
        interest_rate_annual_pct := values.interest_rate_annual_pct
        duration_months := values.duration_months
        collateral_asset_id := collateralId }

/-- A form submission: the resolver validates with `loanSchema` first and
`onSubmit` only runs when validation passes, so a rejected submission issues
no request. -/
def loanFormSubmit (parseNum : String → Int) (loan : Option LoanResponse)
    (values : LoanFormValues) : Option LoanApiRequest :=
  if loanSchemaCheck values then some (loanFormOnSubmit parseNum loan values)
  else none

/-! ## react-query cache model (hooks in `use-assets.ts`, `use-projections.ts`,
`use-scenarios.ts`)

Query keys are arrays of strings and request objects;
`queryClient.invalidateQueries({ queryKey: K })` marks stale every cached
query whose key has `K` as a prefix. A `useQuery` read within `staleTime`
returns the cached value unless the entry was invalidated.
`useMutation` touches the query cache only through its callbacks. -/

/-- One segment of a react-query key. -/
inductive QueryKeySeg
  | str (s : String)
  | params (p : ProjectionRequest)
deriving DecidableEq, Repr

/-- A react-query key, e.g. `['projection', params]`. -/
abbrev QueryKey := List QueryKeySeg

/-- Whether an `invalidateQueries` filter key matches a cached query key:
the filter must be a prefix of the query key. -/
def keyMatches : QueryKey → QueryKey → Bool
  | [], _ => true
  | _ :: _, [] => false
  | a :: as, b :: bs => decide (a = b) && keyMatches as bs

/-- A cached query result plus its staleness flag. -/
structure CacheEntry (V : Type) where
  value : V
  isStale : Bool
deriving DecidableEq, Repr

/-- The query cache: cached entries keyed by query key. -/
abbrev QueryCache (V : Type) := List (QueryKey × CacheEntry V)

/-- `queryClient.invalidateQueries` for a list of filter keys: every matched
entry is marked stale. -/
def invalidateQueries {V : Type} (filters : List QueryKey) (c : QueryCache V) :
    QueryCache V :=
  c.map (fun kv =>
    if filters.any (fun f => keyMatches f kv.1) then
      (kv.1, { kv.2 with isStale := true })
    else kv)

/-- Look up the cache entry stored under a key (first match). -/
def lookupEntry {V : Type} : QueryCache V → QueryKey → Option (CacheEntry V)
  | [], _ => none
  | kv :: rest, k => if kv.1 = k then some kv.2 else lookupEntry rest k

/-- What `useQuery` returns within `staleTime`: the cached value when the
entry is present and not stale, otherwise the refetched result. -/
def queryRead {V : Type} (c : QueryCache V) (k : QueryKey) (refetched : V) : V :=
  match lookupEntry c k with
  | some e => if e.isStale then refetched else e.value
  | none => refetched

/-- Query key `['assets']` (use-assets.ts). -/
def assetsKey : QueryKey := [.str "assets"]

/-- Query key `['portfolio-summary']` (use-portfolio.ts). -/
def portfolioSummaryKey : QueryKey := [.str "portfolio-summary"]

/-- Query key `['projection', params]` of `useProjectionQuery`
(use-projections.ts lines 11-17, `staleTime: 5 * 60 * 1000`). -/
def projectionQueryKey (p : ProjectionRequest) : QueryKey :=
  [.str "projection", .params p]

/-- The `onSuccess` invalidations of `useCreateAsset` (use-assets.ts lines
20-23): `['assets']` and `['portfolio-summary']`, nothing else. -/
def useCreateAssetInvalidations : List QueryKey :=
  [assetsKey, portfolioSummaryKey]

/-- The cache-relevant content of a `useMutation` hook: which query keys its
callbacks invalidate. -/
structure MutationSpec where
  onSuccessInvalidations : List QueryKey
deriving DecidableEq, Repr

/-- `useRunScenario` (use-scenarios.ts lines 51-56): a bare mutation with no
`onSuccess`/`onSettled` callback, so it invalidates nothing. -/
def useRunScenarioMutation : MutationSpec :=
  { onSuccessInvalidations := [] }

/-- The effect of completing a mutation on the query cache. -/
def mutationCacheEffect {V : Type} (m : MutationSpec) (c : QueryCache V) :
    QueryCache V :=
  invalidateQueries m.onSuccessInvalidations c

/-- An HTTP call made by an api module. -/
structure ApiCall where
  method : String
  path : String
deriving DecidableEq, Repr

/-- `scenariosApi.run` (api/scenarios.ts):
`apiClient.post(`/api/scenarios/${id}/run`, params ?? {})`. -/
def scenariosApiRun (id : Int) : ApiCall :=
  { method := "POST", path := "/api/scenarios/" ++ toString id ++ "/run" }

/-! ## Cash-flow chart (`features/projections/projections-page.tsx`,
`CashFlowChart`, lines 271-321)

`sources` deduplicates breakdown items by `source_name` with a `seen` set and
keeps an unseen-named item only when its series has a nonzero value; note the
name is added to `seen` before the nonzero test, so an all-zero first
occurrence also blocks every later item of that name. `chartData` folds the
retained items into a date-keyed map of rows, negating expense values, then
merges `net_series` under the `__net__` key. -/

/-- `item.time_series.some(p => Number(p.value) !== 0)`. -/
def hasNonzeroPoint (item : CashFlowItem) : Bool :=
  item.time_series.any (fun p => decide (p.value ≠ 0))

/-- The `breakdown.items.filter(...)` callback with its captured `seen` set:
`if (seen.has(item.source_name)) return false; seen.add(item.source_name);
return item.time_series.some(p => Number(p.value) !== 0);`. -/
def dedupFilterLoop (seen : List String) :
    List CashFlowItem → List CashFlowItem
  | [] => []
  | item :: rest =>
    if item.source_name ∈ seen then dedupFilterLoop seen rest
    else if hasNonzeroPoint item then
      item :: dedupFilterLoop (item.source_name :: seen) rest
    else dedupFilterLoop (item.source_name :: seen) rest

/-- `sources` from `CashFlowChart`: `if (!breakdown?.items?.length) return
[];` then the deduplicating filter. -/
def chartSources (breakdown : CashFlowBreakdown) : List CashFlowItem :=
  if breakdown.items.isEmpty then [] else dedupFilterLoop [] breakdown.items

/-- A chart row: the JS object `Record<string, number>` held per date. -/
abbrev ChartRow := List (String × ℚ)

/-- JS object assignment `row[k] = v`: overwrite the key in place or append. -/
def rowSet : ChartRow → String → ℚ → ChartRow
  | [], k, v => [(k, v)]
  | (k0, v0) :: rest, k, v =>
    if k0 = k then (k, v) :: rest else (k0, v0) :: rowSet rest k v

/-- JS object read `row[k]`. -/
def rowGet : ChartRow → String → Option ℚ
  | [], _ => none
  | (k0, v0) :: rest, k => if k0 = k then some v0 else rowGet rest k

/-- The `dateMap: Map<string, Record<string, number>>` of `chartData`. -/
abbrev DateMap := List (String × ChartRow)

/-- `dateMap.set(d, row)`: overwrite the date's row in place or append. -/
def mapSet : DateMap → String → ChartRow → DateMap
  | [], d, row => [(d, row)]
  | (d0, r0) :: rest, d, row =>
    if d0 = d then (d, row) :: rest else (d0, r0) :: mapSet rest d row

/-- `dateMap.get(d)`. -/
def mapGet : DateMap → String → Option ChartRow
  | [], _ => none
  | (d0, r0) :: rest, d => if d0 = d then some r0 else mapGet rest d

/-- `item.source_type === 'expense' ? -val : val`. -/
def signedValue (item : CashFlowItem) (v : ℚ) : ℚ :=
  if item.source_type = "expense" then -v else v

/-- The inner loop body of `chartData`: `const existing =
dateMap.get(rawDate) ?? {}; existing[item.source_name] = signed;
dateMap.set(rawDate, existing);`. -/
def addItemPoint (m : DateMap) (item : CashFlowItem)
    (p : TimeSeriesDataPoint) : DateMap :=
  let existing := (mapGet m p.date).getD []
  mapSet m p.date (rowSet existing item.source_name (signedValue item p.value))

/-- The outer loop of `chartData`: fold one item's series into the map. -/
def addItem (m : DateMap) (item : CashFlowItem) : DateMap :=
  item.time_series.foldl (fun acc p => addItemPoint acc item p) m

/-- The `net_series` loop: `existing['__net__'] = Number(point.value)`. -/
def addNetPoint (m : DateMap) (p : TimeSeriesDataPoint) : DateMap :=
  let existing := (mapGet m p.date).getD []
  mapSet m p.date (rowSet existing "__net__" p.value)

/-- The fully built `dateMap` of `chartData` (before sorting and date
formatting, which only reorder rows and rewrite the `date` column). -/
def buildChartDateMap (b : CashFlowBreakdown) : DateMap :=
  let m := (chartSources b).foldl addItem []
  b.net_series.foldl (fun acc p => addNetPoint acc p) m

/-- The value a date map holds at date `d` under key `k`. -/
def mval (m : DateMap) (d k : String) : Option ℚ :=
  rowGet ((mapGet m d).getD []) k

/-- The value the chart row for ISO date `d` holds under key `k`. -/
def chartValue (b : CashFlowBreakdown) (d k : String) : Option ℚ :=
  mval (buildChartDateMap b) d k

/-- Counterexample input: two breakdown items named "Salary"; the first has an
all-zero series, the second a nonzero one. -/
def dupZeroItem : CashFlowItem :=
  { source_name := "Salary", source_type := "income", category := "salary"
    time_series := [{ date := "2025-01-01", value := 0 }]
    entity_id := none, entity_type := none }

/-- Second item of the duplicate-name counterexample. -/
def dupNonzeroItem : CashFlowItem :=
  { source_name := "Salary", source_type := "income", category := "salary"
    time_series := [{ date := "2025-01-01", value := 5 }]
    entity_id := none, entity_type := none }

/-- Breakdown whose items collide on `source_name`. -/
def dupBreakdownEx : CashFlowBreakdown :=
  { items := [dupZeroItem, dupNonzeroItem]
    total_income_series := [], total_expense_series := [], net_series := [] }

/-- Witness input: a single expense item with one nonzero point. -/
def exExpenseItem : CashFlowItem :=
  { source_name := "Arnona", source_type := "expense", category := "withdrawal"
    time_series := [{ date := "2025-01-01", value := 200 }]
    entity_id := none, entity_type := none }

/-- Witness input: breakdown containing just `exExpenseItem`. -/
def exExpenseBreakdown : CashFlowBreakdown :=
  { items := [exExpenseItem]
    total_income_series := [], total_expense_series := []
    net_series := [{ date := "2025-01-01", value := -200 }] }

/-- Witness input for the loan-schema claim: duration zero. -/
def zeroDurationValues : LoanFormValues :=
  { loan_type := "fixed", name := "mortgage", start_date := "2024-01-01"
    original_value := 100, interest_rate_annual_pct := 4
    duration_months := 0, collateral_asset_id := none }

/-! ## Fixed-loan annuity calculator -/

/-- Modelled from the spec: the projection engine's calculators live in the
Python backend (`fplan_v2/core`), which is not among the shipped sources.
Spec section 4.1: monthly rate `r = annual_rate/100/12`. -/
def monthlyRate (annual_rate_pct : ℚ) : ℚ := annual_rate_pct / 100 / 12

/-- Modelled from the spec: fixed-loan monthly payment
`M = P * r(1+r)^n / ((1+r)^n - 1)`, with the degenerate `r ≈ 0` case using
straight-line `M = P/n` (spec section 4.1). -/
def fixedMonthlyPayment (principal annual_rate_pct : ℚ)
    (duration_months : ℕ) : ℚ :=
  let r := monthlyRate annual_rate_pct
  if r = 0 then principal / duration_months
  else principal * (r * (1 + r) ^ duration_months) /
    ((1 + r) ^ duration_months - 1)

/-- Modelled from the spec: balance after `k` payments
`P*(1+r)^k - M*((1+r)^k - 1)/r` (spec section 4.1); straight-line
`P - M*k` in the degenerate `r ≈ 0` case. -/
def fixedBalanceAfter (principal annual_rate_pct : ℚ)
    (duration_months k : ℕ) : ℚ :=
  let r := monthlyRate annual_rate_pct
  let M := fixedMonthlyPayment principal annual_rate_pct duration_months
  if r = 0 then principal - M * k
  else principal * (1 + r) ^ k - M * ((1 + r) ^ k - 1) / r

theorem mergeRowsAux_getElem (fmt : String → String)
    (ta tl : List TimeSeriesDataPoint) :
    ∀ (nw : List TimeSeriesDataPoint) (j i : Nat),
      (mergeRowsAux fmt ta tl j nw)[i]? =
        nw[i]?.map (fun p =>
          { date := fmt p.date
            netWorth := p.value
            assets := valueAtIdxOr0 ta (j + i)
            liabilities := valueAtIdxOr0 tl (j + i) }) := by
  intro nw
  induction nw with
  | nil => intro j i; simp [mergeRowsAux]
  | cons p rest ih =>
    intro j i
    cases i with
    | zero => simp [mergeRowsAux]
    | succ i =>
      simp only [mergeRowsAux, List.getElem?_cons_succ]
      rw [ih (j + 1) i]
      have : j + 1 + i = j + (i + 1) := by omega
      rw [this]

theorem mergeRows_length (fmt : String → String)
    (nw ta tl : List TimeSeriesDataPoint) :
    (mergeRows fmt nw ta tl).length = nw.length := by
  show (mergeRowsAux fmt ta tl 0 nw).length = nw.length
  generalize 0 = j
  induction nw generalizing j with
  | nil => simp [mergeRowsAux]
  | cons p rest ih => simp [mergeRowsAux, ih]

theorem valueAtIdxOr0_eq (s : List TimeSeriesDataPoint) (i : Nat) :
    valueAtIdxOr0 s i =
      if h : i < s.length then (s.get ⟨i, h⟩).value else 0 := by
  by_cases h : i < s.length
  · simp [valueAtIdxOr0, List.getElem?_eq_getElem h, h]
  · rw [dif_neg h]
    simp [valueAtIdxOr0, List.getElem?_eq_none (by omega : s.length ≤ i)]

/-- Claim C10: `NetWorthChart` merges the three summary series by positional
index: merged row `i` pairs `netWorth[i].value` with `totalAssets[i].value`
and `totalLiabilities[i].value`, substituting `0` when the assets or
liabilities series is shorter than the net-worth series. -/
theorem netWorthChart_positional_merge (fmt : String → String)
    (nw ta tl : List TimeSeriesDataPoint) :
    (mergeRows fmt nw ta tl).length = nw.length ∧
    ∀ i : Nat,
      (mergeRows fmt nw ta tl)[i]? =
        nw[i]?.map (fun p =>
          { date := fmt p.date
            netWorth := p.value
            assets := if h : i < ta.length then (ta.get ⟨i, h⟩).value else 0
            liabilities :=
              if h : i < tl.length then (tl.get ⟨i, h⟩).value else 0 }) := by
  refine ⟨mergeRows_length fmt nw ta tl, fun i => ?_⟩
  have h := mergeRowsAux_getElem fmt ta tl nw 0 i
  simp only [Nat.zero_add] at h
  rw [show mergeRows fmt nw ta tl = mergeRowsAux fmt ta tl 0 nw from rfl, h]
  simp [valueAtIdxOr0_eq]

/-- Claim C9 counterexample: an asset whose `sell_date` is the empty string is
non-null and differs from the sentinel `'2100-01-01'`, yet `hasSellDate`
classifies it as having no sell date (JS truthiness makes `""` falsy). -/
theorem hasSellDate_empty_string_counterexample :
    hasSellDate emptySellDateAsset = false ∧
    emptySellDateAsset.sell_date ≠ none ∧
    emptySellDateAsset.sell_date ≠ some "2100-01-01" := by
  decide

/-- Claim C9 (amended): an asset is classified as having a sell date iff its
`sell_date` is non-null, non-empty, and different from the sentinel
`'2100-01-01'`. -/
theorem hasSellDate_iff (a : AssetResponse) :
    hasSellDate a = true ↔
      ∃ s, a.sell_date = some s ∧ s ≠ "" ∧ s ≠ "2100-01-01" := by
  cases h : a.sell_date with
  | none => simp [hasSellDate, strTruthy, h]
  | some s =>
    have he : s.isEmpty = false ↔ s ≠ "" := by
      rw [Ne, ← String.isEmpty_iff s]
      simp
    simp only [hasSellDate, strTruthy, h, Bool.and_eq_true, Bool.not_eq_true',
      decide_eq_true_eq, ne_eq, Option.some.injEq]
    constructor
    · rintro ⟨h1, h2⟩
      exact ⟨s, rfl, he.mp h1, h2⟩
    · rintro ⟨t, rfl, h1, h2⟩
      exact ⟨he.mpr h1, h2⟩

/-- Claim C6: editing an existing loan sends an update whose body carries only
`name` and `interest_rate_annual_pct`; `loan_type`, `start_date`,
`original_value`, `duration_months` and `collateral_asset_id` (and
`current_balance`) are never part of an update request. -/
theorem loanForm_update_frame (parseNum : String → Int) (l : LoanResponse)
    (values : LoanFormValues) :
    ∃ body : LoanUpdateBody,
      loanFormOnSubmit parseNum (some l) values = .update l.id body ∧
      body.name = some values.name ∧
      body.interest_rate_annual_pct = some values.interest_rate_annual_pct ∧
      body.loan_type = none ∧
      body.start_date = none ∧
      body.original_value = none ∧
      body.duration_months = none ∧
      body.collateral_asset_id = none ∧
      body.current_balance = none :=
  ⟨_, rfl, rfl, rfl, rfl, rfl, rfl, rfl, rfl, rfl⟩

theorem loanSchemaCheck_true_iff (v : LoanFormValues) :
    loanSchemaCheck v = true ↔
      1 ≤ v.loan_type.length ∧ 1 ≤ v.name.length ∧ 1 ≤ v.start_date.length ∧
      0 ≤ v.original_value ∧ 0 ≤ v.interest_rate_annual_pct ∧
      v.duration_months.den = 1 ∧ 1 ≤ v.duration_months := by
  simp [loanSchemaCheck, and_assoc]

/-- Claim C8: the loan-creation form's schema accepts a submission only if
`duration_months` is an integer at least `1` (and `original_value ≥ 0`,
`interest_rate_annual_pct ≥ 0`); a submission with `duration_months ≤ 0` or a
non-integer duration is rejected and no create request is issued. -/
theorem loanSchema_validation (parseNum : String → Int)
    (values : LoanFormValues) :
    (loanFormSubmit parseNum none values ≠ none →
      values.duration_months.den = 1 ∧ 1 ≤ values.duration_months ∧
      0 ≤ values.original_value ∧ 0 ≤ values.interest_rate_annual_pct) ∧
    ((values.duration_months ≤ 0 ∨ values.duration_months.den ≠ 1) →
      loanFormSubmit parseNum none values = none) := by
  constructor
  · intro h
    by_cases hc : loanSchemaCheck values = true
    · obtain ⟨-, -, -, h4, h5, h6, h7⟩ := (loanSchemaCheck_true_iff values).mp hc
      exact ⟨h6, h7, h4, h5⟩
    · exact absurd (by simp [loanFormSubmit, hc]) h
  · intro h
    have hc : ¬loanSchemaCheck values = true := by
      intro hc
      obtain ⟨-, -, -, -, -, h6, h7⟩ := (loanSchemaCheck_true_iff values).mp hc
      rcases h with h | h
      · exact absurd (lt_of_lt_of_le one_pos h7) (not_lt.mpr h)
      · exact h h6
    simp [loanFormSubmit, hc]

/-- Witness for claim C8: a duration of `0` months is rejected and no request
is issued. -/
theorem loanSchema_validation_witness :
    (zeroDurationValues.duration_months ≤ 0 ∨
      zeroDurationValues.duration_months.den ≠ 1) ∧
    loanFormSubmit (fun _ => 0) none zeroDurationValues = none :=
  ⟨Or.inl (by decide),
    (loanSchema_validation (fun _ => 0) zeroDurationValues).2
      (Or.inl (by decide))⟩

/-- Claim C1 (the code violates it): `useCreateAsset`'s `onSuccess`
invalidates only `['assets']` and `['portfolio-summary']`; neither filter
matches `['projection', p]`, so a fresh cached projection entry survives the
asset creation and the next `useProjectionQuery` read with the same
parameters (within `staleTime`) returns the stale cached value instead of
recomputing. -/
theorem useCreateAsset_leaves_projection_cached (p : ProjectionRequest)
    (v refetched : ℚ) :
    (useCreateAssetInvalidations.any
      (fun f => keyMatches f (projectionQueryKey p))) = false ∧
    queryRead
      (invalidateQueries useCreateAssetInvalidations
        [(projectionQueryKey p, { value := v, isStale := false })])
      (projectionQueryKey p) refetched = v := by
  have hm : (useCreateAssetInvalidations.any
      (fun f => keyMatches f (projectionQueryKey p))) = false := by
    simp [useCreateAssetInvalidations, assetsKey, portfolioSummaryKey,
      projectionQueryKey, keyMatches]
  refine ⟨hm, ?_⟩
  simp only [invalidateQueries, List.map_cons, List.map_nil, hm,
    Bool.false_eq_true, if_false]
  simp [queryRead, lookupEntry]

/-- Claim C7: `useRunScenario` posts to `/api/scenarios/{id}/run` as a bare
mutation; completing it neither invalidates nor rewrites any cached query
entry, so every `['projection', p]` cache entry is unchanged by a scenario
run. -/
theorem useRunScenario_cache_frame (V : Type) (c : QueryCache V) (id : Int)
    (p : ProjectionRequest) :
    mutationCacheEffect useRunScenarioMutation c = c ∧
    lookupEntry (mutationCacheEffect useRunScenarioMutation c)
      (projectionQueryKey p) = lookupEntry c (projectionQueryKey p) ∧
    scenariosApiRun id =
      { method := "POST", path := "/api/scenarios/" ++ toString id ++ "/run" } := by
  have h : mutationCacheEffect useRunScenarioMutation c = c := by
    simp [mutationCacheEffect, useRunScenarioMutation, invalidateQueries]
  exact ⟨h, by rw [h], rfl⟩

theorem revenueRows_filter_isCf (fmt : String → String)
    (an : Option Int → String) :
    ∀ streams : List RevenueStreamResponse,
      (revenueRows fmt an streams).filter (fun r => r.key.isCf) = []
  | [] => by simp [revenueRows]
  | s :: rest => by
    by_cases h : s.amount ≤ 0
    · simp only [revenueRows, if_pos h]
      exact revenueRows_filter_isCf fmt an rest
    · simp only [revenueRows, if_neg h, List.filter_cons]
      simpa [RowKey.isCf] using revenueRows_filter_isCf fmt an rest

theorem breakdownRows_filter_isCf :
    ∀ items : List CashFlowItem,
      (breakdownRows items).filter (fun r => r.key.isCf) = []
  | [] => by simp [breakdownRows]
  | item :: rest => by
    by_cases h : item.category ≠ "loan_payment"
    · simp only [breakdownRows, if_pos h]
      exact breakdownRows_filter_isCf rest
    · simp only [breakdownRows, if_neg h, List.filter_cons]
      simpa [RowKey.isCf] using breakdownRows_filter_isCf rest

theorem cashFlowRowsLoop_eq (fmt : String → String)
    (an : Option Int → String) :
    ∀ cfs : List CashFlowResponse,
      cashFlowRowsLoop fmt an cfs =
        (cfs.filter (fun cf =>
          !(cf.flow_type == CashFlowType.deposit && !cf.from_own_capital))).map
          (cashFlowRow fmt an)
  | [] => by simp [cashFlowRowsLoop]
  | cf :: rest => by
    have ih := cashFlowRowsLoop_eq fmt an rest
    by_cases h : cf.flow_type = CashFlowType.deposit ∧ cf.from_own_capital = false
    · obtain ⟨h1, h2⟩ := h
      simp only [cashFlowRowsLoop, if_pos (And.intro h1 h2), List.filter_cons,
        h1, h2]
      simpa using ih
    · have hb : (!(cf.flow_type == CashFlowType.deposit &&
          !cf.from_own_capital)) = true := by
        cases ht : cf.flow_type <;> cases ho : cf.from_own_capital <;>
          simp_all
      simp only [cashFlowRowsLoop, if_neg h, List.filter_cons, hb, if_pos]
      simp [ih]

theorem cashFlowRowsLoop_all_isCf (fmt : String → String)
    (an : Option Int → String) (cfs : List CashFlowResponse) :
    (cashFlowRowsLoop fmt an cfs).filter (fun r => r.key.isCf) =
      cashFlowRowsLoop fmt an cfs := by
  rw [List.filter_eq_self]
  intro r hr
  rw [cashFlowRowsLoop_eq] at hr
  obtain ⟨cf, -, rfl⟩ := List.mem_map.mp hr
  rfl

/-- Claim C4: in the unified cash-flow table, a deposit with
`from_own_capital = false` produces no row, while every withdrawal and every
own-capital deposit produces exactly one row: the cash-flow rows of the table
are exactly the retained cash flows mapped to their rows, in order. -/
theorem unifiedRows_employer_deposits_excluded (fmt : String → String)
    (an : Option Int → String) (streams : List RevenueStreamResponse)
    (cfs : List CashFlowResponse) (items : List CashFlowItem) :
    (unifiedRows fmt an streams cfs items).filter (fun r => r.key.isCf) =
      (cfs.filter (fun cf =>
        !(cf.flow_type == CashFlowType.deposit && !cf.from_own_capital))).map
        (cashFlowRow fmt an) := by
  rw [unifiedRows, List.filter_append, List.filter_append,
    revenueRows_filter_isCf, breakdownRows_filter_isCf,
    cashFlowRowsLoop_all_isCf, cashFlowRowsLoop_eq]
  simp

theorem chartSources_eq (b : CashFlowBreakdown) :
    chartSources b = dedupFilterLoop [] b.items := by
  rw [chartSources]
  by_cases h : b.items.isEmpty
  · rw [if_pos h, List.isEmpty_iff.mp h]
    rfl
  · rw [if_neg h]

theorem mem_dedupFilterLoop (it : CashFlowItem) :
    ∀ (seen : List String) (items : List CashFlowItem),
      it ∈ dedupFilterLoop seen items →
        it ∈ items ∧ hasNonzeroPoint it = true := by
  intro seen items
  induction items generalizing seen with
  | nil => simp [dedupFilterLoop]
  | cons a rest ih =>
    intro h
    simp only [dedupFilterLoop] at h
    split at h
    · obtain ⟨h1, h2⟩ := ih _ h
      exact ⟨List.mem_cons_of_mem _ h1, h2⟩
    · split at h
      · rcases List.mem_cons.mp h with h | h
        · subst h
          exact ⟨List.mem_cons_self _ _, by assumption⟩
        · obtain ⟨h1, h2⟩ := ih _ h
          exact ⟨List.mem_cons_of_mem _ h1, h2⟩
      · obtain ⟨h1, h2⟩ := ih _ h
        exact ⟨List.mem_cons_of_mem _ h1, h2⟩

theorem dedupFilterLoop_names :
    ∀ (seen : List String) (items : List CashFlowItem),
      ((dedupFilterLoop seen items).map CashFlowItem.source_name).Nodup ∧
      ∀ it ∈ dedupFilterLoop seen items, it.source_name ∉ seen := by
  intro seen items
  induction items generalizing seen with
  | nil => simp [dedupFilterLoop]
  | cons a rest ih =>
    simp only [dedupFilterLoop]
    split
    · exact ih seen
    · split
      · obtain ⟨ihn, ihs⟩ := ih (a.source_name :: seen)
        refine ⟨List.nodup_cons.mpr ⟨?_, ihn⟩, ?_⟩
        · intro hmem
          obtain ⟨x, hx, he⟩ := List.mem_map.mp hmem
          exact ihs x hx (he ▸ List.mem_cons_self _ _)
        · intro it hit
          rcases List.mem_cons.mp hit with h | h
          · subst h
            assumption
          · exact fun hs => ihs it h (List.mem_cons_of_mem _ hs)
      · obtain ⟨ihn, ihs⟩ := ih (a.source_name :: seen)
        exact ⟨ihn, fun it hit hs => ihs it hit (List.mem_cons_of_mem _ hs)⟩

theorem dedupFilterLoop_countP (n : String) :
    ∀ (seen : List String) (items : List CashFlowItem),
      (dedupFilterLoop seen items).countP
        (fun it => it.source_name == n) ≤ 1 := by
  intro seen items
  obtain ⟨hn, hs⟩ := dedupFilterLoop_names seen items
  have := List.nodup_iff_count_le_one.mp hn n
  rw [List.count_eq_countP, List.countP_map] at this
  calc (dedupFilterLoop seen items).countP (fun it => it.source_name == n)
      = (dedupFilterLoop seen items).countP
          ((fun s => s == n) ∘ CashFlowItem.source_name) := rfl
    _ ≤ 1 := this

theorem dedupFilterLoop_find_first (n : String) :
    ∀ (seen : List String) (items : List CashFlowItem) (it : CashFlowItem),
      n ∉ seen →
      items.find? (fun x => x.source_name == n) = some it →
      (it ∈ dedupFilterLoop seen items ↔ hasNonzeroPoint it = true) := by
  intro seen items
  induction items generalizing seen with
  | nil => simp
  | cons a rest ih =>
    intro it hn hfind
    by_cases ha : (a.source_name == n) = true
    · simp only [List.find?_cons, ha] at hfind
      obtain rfl : a = it := by injection hfind
      have haname : a.source_name = n := by simpa using ha
      have hseen : a.source_name ∉ seen := haname ▸ hn
      simp only [dedupFilterLoop, if_neg hseen]
      by_cases hz : hasNonzeroPoint a = true
      · rw [if_pos hz]
        simp [hz]
      · rw [if_neg hz, iff_false_intro hz, iff_false]
        intro hmem
        exact (dedupFilterLoop_names (a.source_name :: seen) rest).2 a hmem
          (List.mem_cons_self _ _)
    · simp only [List.find?_cons, Bool.of_not_eq_true ha] at hfind
      have hitname : it.source_name = n := by
        simpa using List.find?_some hfind
      have hne : a.source_name ≠ n := fun h => ha (by simp [h])
      simp only [dedupFilterLoop]
      split
      · exact ih seen it hn hfind
      · have hn2 : n ∉ a.source_name :: seen := by
          intro h
          rcases List.mem_cons.mp h with h | h
          · exact hne h.symm
          · exact hn h
        split
        · rw [List.mem_cons]
          have hia : ¬it = a := fun h => hne (h ▸ hitname)
          simp only [hia, false_or]
          exact ih _ it hn2 hfind
        · exact ih _ it hn2 hfind

theorem dedupFilterLoop_mem_find_first :
    ∀ (seen : List String) (items : List CashFlowItem) (it : CashFlowItem),
      it ∈ dedupFilterLoop seen items →
      items.find? (fun x => x.source_name == it.source_name) = some it := by
  intro seen items
  induction items generalizing seen with
  | nil => simp [dedupFilterLoop]
  | cons a rest ih =>
    intro it hit
    simp only [dedupFilterLoop] at hit
    split at hit
    · rename_i ha
      have hnotseen : it.source_name ∉ seen :=
        (dedupFilterLoop_names seen rest).2 it hit
      have hne : (a.source_name == it.source_name) = false := by
        rw [beq_eq_false_iff_ne]
        intro he
        exact hnotseen (he ▸ ha)
      simp only [List.find?_cons, hne]
      exact ih seen it hit
    · split at hit
      · rcases List.mem_cons.mp hit with h | h
        · subst h
          simp [List.find?_cons]
        · have hnotseen : it.source_name ∉ a.source_name :: seen :=
            (dedupFilterLoop_names (a.source_name :: seen) rest).2 it h
          have hne : (a.source_name == it.source_name) = false := by
            rw [beq_eq_false_iff_ne]
            intro he
            exact hnotseen (by rw [← he]; exact List.mem_cons_self _ _)
          simp only [List.find?_cons, hne]
          exact ih _ it h
      · have hnotseen : it.source_name ∉ a.source_name :: seen :=
          (dedupFilterLoop_names (a.source_name :: seen) rest).2 it hit
        have hne : (a.source_name == it.source_name) = false := by
          rw [beq_eq_false_iff_ne]
          intro he
          exact hnotseen (by rw [← he]; exact List.mem_cons_self _ _)
        simp only [List.find?_cons, hne]
        exact ih _ it hit

/-- Claim C2 counterexample: two breakdown items share `source_name`
"Salary"; the first has an all-zero series, so the code drops the first item
as well (the name was already marked seen) and the later nonzero item too —
the first item is not kept, contradicting "only the first such item is
kept". -/
theorem chartSources_dedup_counterexample :
    dupZeroItem.source_name = dupNonzeroItem.source_name ∧
    hasNonzeroPoint dupNonzeroItem = true ∧
    chartSources dupBreakdownEx = [] := by
  decide

/-- Claim C2 (amended): among items sharing a `source_name`, every item after
the first occurrence is always dropped: at most one item per name is kept,
and every kept item is the `find?`-first occurrence of its name in the input
(so a later same-named item is never kept, whatever its series). Every kept
item comes from the input and has a nonzero point; the first item bearing a
given name is kept precisely when its own series contains a nonzero value;
and when the first occurrence is all-zero, no item with that name is kept at
all — an all-zero first occurrence silently discards every later item of
that name. -/
theorem chartSources_dedup (b : CashFlowBreakdown) (n : String) :
    (chartSources b).countP (fun it => it.source_name == n) ≤ 1 ∧
    (∀ it ∈ chartSources b,
      it ∈ b.items ∧ hasNonzeroPoint it = true ∧
      b.items.find? (fun x => x.source_name == it.source_name) = some it) ∧
    (∀ it, b.items.find? (fun x => x.source_name == n) = some it →
      (it ∈ chartSources b ↔ hasNonzeroPoint it = true)) ∧
    (∀ it, b.items.find? (fun x => x.source_name == n) = some it →
      hasNonzeroPoint it = false →
      ∀ it2 ∈ chartSources b, it2.source_name ≠ n) := by
  rw [chartSources_eq]
  refine ⟨dedupFilterLoop_countP n [] b.items,
    fun it hit => ?_,
    fun it hfind =>
      dedupFilterLoop_find_first n [] b.items it (List.not_mem_nil n) hfind,
    fun it hfind hz it2 hit2 hname2 => ?_⟩
  · obtain ⟨h1, h2⟩ := mem_dedupFilterLoop it [] b.items hit
    exact ⟨h1, h2, dedupFilterLoop_mem_find_first [] b.items it hit⟩
  · have hfirst2 := dedupFilterLoop_mem_find_first [] b.items it2 hit2
    rw [hname2] at hfirst2
    rw [hfind] at hfirst2
    obtain rfl : it = it2 := by injection hfirst2
    exact absurd (mem_dedupFilterLoop it [] b.items hit2).2 (by rw [hz]; simp)

/-- Witness for claim C2: a uniquely named item with a nonzero point is kept. -/
theorem chartSources_dedup_witness :
    exExpenseBreakdown.items.find?
      (fun x => x.source_name == "Arnona") = some exExpenseItem ∧
    (exExpenseItem ∈ chartSources exExpenseBreakdown ↔
      hasNonzeroPoint exExpenseItem = true) :=
  ⟨by decide,
    (chartSources_dedup exExpenseBreakdown "Arnona").2.2.1 exExpenseItem
      (by decide)⟩

theorem rowGet_rowSet_self (k : String) (v : ℚ) :
    ∀ row : ChartRow, rowGet (rowSet row k v) k = some v
  | [] => by simp [rowSet, rowGet]
  | (k0, v0) :: rest => by
    by_cases h : k0 = k
    · simp [rowSet, rowGet, h]
    · simp only [rowSet, if_neg h, rowGet, if_neg h]
      exact rowGet_rowSet_self k v rest

theorem rowGet_rowSet_ne (k k2 : String) (v : ℚ) (h : k2 ≠ k) :
    ∀ row : ChartRow, rowGet (rowSet row k v) k2 = rowGet row k2
  | [] => by simp [rowSet, rowGet, Ne.symm h]
  | (k0, v0) :: rest => by
    by_cases h0 : k0 = k
    · subst h0
      simp [rowSet, rowGet, Ne.symm h]
    · simp only [rowSet, if_neg h0, rowGet]
      by_cases h2 : k0 = k2
      · simp [h2]
      · simp only [if_neg h2]
        exact rowGet_rowSet_ne k k2 v h rest

theorem mapGet_mapSet_self (d : String) (row : ChartRow) :
    ∀ m : DateMap, mapGet (mapSet m d row) d = some row
  | [] => by simp [mapSet, mapGet]
  | (d0, r0) :: rest => by
    by_cases h : d0 = d
    · simp [mapSet, mapGet, h]
    · simp only [mapSet, if_neg h, mapGet, if_neg h]
      exact mapGet_mapSet_self d row rest

theorem mapGet_mapSet_ne (d d2 : String) (row : ChartRow) (h : d2 ≠ d) :
    ∀ m : DateMap, mapGet (mapSet m d row) d2 = mapGet m d2
  | [] => by simp [mapSet, mapGet, Ne.symm h]
  | (d0, r0) :: rest => by
    by_cases h0 : d0 = d
    · subst h0
      simp [mapSet, mapGet, Ne.symm h]
    · simp only [mapSet, if_neg h0, mapGet]
      by_cases h2 : d0 = d2
      · simp [h2]
      · simp only [if_neg h2]
        exact mapGet_mapSet_ne d d2 row h rest

theorem mval_addItemPoint_self (m : DateMap) (item : CashFlowItem)
    (p : TimeSeriesDataPoint) :
    mval (addItemPoint m item p) p.date item.source_name =
      some (signedValue item p.value) := by
  rw [mval, addItemPoint, mapGet_mapSet_self]
  exact rowGet_rowSet_self _ _ _

theorem mval_addItemPoint_ne_key (m : DateMap) (item : CashFlowItem)
    (p : TimeSeriesDataPoint) (d k : String) (h : k ≠ item.source_name) :
    mval (addItemPoint m item p) d k = mval m d k := by
  by_cases hd : d = p.date
  · subst hd
    rw [mval, addItemPoint, mapGet_mapSet_self, Option.getD_some,
      rowGet_rowSet_ne _ _ _ h]
    rfl
  · rw [mval, addItemPoint, mapGet_mapSet_ne _ _ _ hd]
    rfl

theorem mval_addItemPoint_ne_date (m : DateMap) (item : CashFlowItem)
    (p : TimeSeriesDataPoint) (d k : String) (h : d ≠ p.date) :
    mval (addItemPoint m item p) d k = mval m d k := by
  rw [mval, addItemPoint, mapGet_mapSet_ne _ _ _ h]
  rfl

theorem mval_foldPoints_ne_date (item : CashFlowItem) :
    ∀ (ps : List TimeSeriesDataPoint) (m : DateMap) (d k : String),
      d ∉ ps.map TimeSeriesDataPoint.date →
      mval (ps.foldl (fun acc p => addItemPoint acc item p) m) d k =
        mval m d k := by
  intro ps
  induction ps with
  | nil => intro m d k _; rfl
  | cons q rest ih =>
    intro m d k hd
    simp only [List.map_cons, List.mem_cons, not_or] at hd
    rw [List.foldl_cons, ih _ d k hd.2, mval_addItemPoint_ne_date _ _ _ _ _ hd.1]

theorem mval_foldPoints_ne_key (item : CashFlowItem) :
    ∀ (ps : List TimeSeriesDataPoint) (m : DateMap) (d k : String),
      k ≠ item.source_name →
      mval (ps.foldl (fun acc p => addItemPoint acc item p) m) d k =
        mval m d k := by
  intro ps
  induction ps with
  | nil => intro m d k _; rfl
  | cons q rest ih =>
    intro m d k hk
    rw [List.foldl_cons, ih _ d k hk, mval_addItemPoint_ne_key _ _ _ _ _ hk]

theorem mval_foldPoints_self (item : CashFlowItem) :
    ∀ (ps : List TimeSeriesDataPoint) (m : DateMap) (p : TimeSeriesDataPoint),
      p ∈ ps → (ps.map TimeSeriesDataPoint.date).Nodup →
      mval (ps.foldl (fun acc p => addItemPoint acc item p) m) p.date
        item.source_name = some (signedValue item p.value) := by
  intro ps
  induction ps with
  | nil => simp
  | cons q rest ih =>
    intro m p hp hnd
    simp only [List.map_cons, List.nodup_cons] at hnd
    rcases List.mem_cons.mp hp with h | h
    · subst h
      rw [List.foldl_cons, mval_foldPoints_ne_date item rest _ _ _ hnd.1,
        mval_addItemPoint_self]
    · exact ih _ p h hnd.2

theorem mval_addItem_ne_key (m : DateMap) (item : CashFlowItem) (d k : String)
    (h : k ≠ item.source_name) :
    mval (addItem m item) d k = mval m d k :=
  mval_foldPoints_ne_key item item.time_series m d k h

theorem mval_foldItems_ne_key :
    ∀ (its : List CashFlowItem) (m : DateMap) (d k : String),
      (∀ it ∈ its, it.source_name ≠ k) →
      mval (its.foldl addItem m) d k = mval m d k := by
  intro its
  induction its with
  | nil => intro m d k _; rfl
  | cons a rest ih =>
    intro m d k hk
    rw [List.foldl_cons, ih _ d k (fun it hit => hk it (List.mem_cons_of_mem _ hit)),
      mval_addItem_ne_key _ _ _ _ (fun he => hk a (List.mem_cons_self _ _) he.symm)]

theorem mval_addNetPoint_ne_key (m : DateMap) (p : TimeSeriesDataPoint)
    (d k : String) (h : k ≠ "__net__") :
    mval (addNetPoint m p) d k = mval m d k := by
  by_cases hd : d = p.date
  · subst hd
    rw [mval, addNetPoint, mapGet_mapSet_self, Option.getD_some,
      rowGet_rowSet_ne _ _ _ h]
    rfl
  · rw [mval, addNetPoint, mapGet_mapSet_ne _ _ _ hd]
    rfl

theorem mval_foldNet_ne_key :
    ∀ (ps : List TimeSeriesDataPoint) (m : DateMap) (d k : String),
      k ≠ "__net__" →
      mval (ps.foldl (fun acc p => addNetPoint acc p) m) d k = mval m d k := by
  intro ps
  induction ps with
  | nil => intro m d k _; rfl
  | cons q rest ih =>
    intro m d k hk
    rw [List.foldl_cons, ih _ d k hk, mval_addNetPoint_ne_key _ _ _ _ hk]

/-- Claim C5: for every retained breakdown item and every date of its series,
the chart row for that date stores, under the item's source name, the negated
series value when `source_type` is `'expense'` and the unchanged value
otherwise (in particular for `'income'`). Stated for items whose series dates
are distinct and whose name is not the reserved `__net__` key, since a later
write to the same date-key pair would overwrite the stored value. -/
theorem cashFlowChart_sign_convention (b : CashFlowBreakdown)
    (item : CashFlowItem) (p : TimeSeriesDataPoint)
    (hmem : item ∈ chartSources b) (hp : p ∈ item.time_series)
    (hdates : (item.time_series.map TimeSeriesDataPoint.date).Nodup)
    (hname : item.source_name ≠ "__net__") :
    chartValue b p.date item.source_name =
      some (if item.source_type = "expense" then -p.value else p.value) := by
  obtain ⟨l1, l2, hsplit⟩ := List.append_of_mem hmem
  have hnodup : ((chartSources b).map CashFlowItem.source_name).Nodup := by
    rw [chartSources_eq]
    exact (dedupFilterLoop_names [] b.items).1
  have hl2 : ∀ it ∈ l2, it.source_name ≠ item.source_name := by
    rw [hsplit, List.map_append, List.map_cons] at hnodup
    have := (List.nodup_append.mp hnodup).2.1
    rw [List.nodup_cons] at this
    intro it hit he
    exact this.1 (he ▸ List.mem_map_of_mem CashFlowItem.source_name hit)
  rw [chartValue, buildChartDateMap,
    mval_foldNet_ne_key _ _ _ _ hname, hsplit, List.foldl_append,
    List.foldl_cons, mval_foldItems_ne_key l2 _ _ _ hl2,
    addItem, mval_foldPoints_self item _ _ _ hp hdates]
  rfl

/-- Witness for claim C5: an expense item's value 200 is stored as -200. -/
theorem cashFlowChart_sign_convention_witness :
    exExpenseItem ∈ chartSources exExpenseBreakdown ∧
    chartValue exExpenseBreakdown "2025-01-01" "Arnona" = some (-200) := by
  refine ⟨by decide, ?_⟩
  have h := cashFlowChart_sign_convention exExpenseBreakdown exExpenseItem
    { date := "2025-01-01", value := 200 } (by decide) (by decide) (by decide)
    (by decide)
  simpa [exExpenseItem] using h

/-- Claim C3 counterexample: the spec's concrete figures contradict its own
annuity formula. At principal 1,000,000, annual rate 4%, duration 240 months,
the formula gives a monthly payment of about 6,059.80 (not 6,059.88) and a
balance after 120 payments of about 598,527.83 (not 577,872); neither quoted
figure is within 2-decimal tolerance. -/
theorem fixedLoan_figures_counterexample :
    ¬(|fixedMonthlyPayment 1000000 4 240 - 6059.88| ≤ 1 / 100) ∧
    ¬(|fixedBalanceAfter 1000000 4 240 120 - 577872| ≤ 1 / 100) := by
  constructor
  · rw [not_le, lt_abs]
    right
    norm_num [fixedMonthlyPayment, monthlyRate]
  · rw [not_le, lt_abs]
    left
    norm_num [fixedBalanceAfter, fixedMonthlyPayment, monthlyRate]

/-- Claim C3 (amended): for a fixed loan with principal `P`, annual rate `a`
and duration `n` months and nonzero monthly rate `r = a/100/12`, the monthly
payment is `P*r*(1+r)^n/((1+r)^n - 1)` and the balance after `k` payments is
`P*(1+r)^k - M*((1+r)^k - 1)/r`, with straight-line `M = P/n` when `r = 0`;
at principal 1,000,000, annual rate 4%, duration 240 months the payment is
about 6,059.80 and the balance at month 120 about 598,527.83, to 2-decimal
tolerance. -/
theorem fixedLoan_annuity (P a : ℚ) (n k : ℕ) (hr : monthlyRate a ≠ 0) :
    fixedMonthlyPayment P a n =
      P * (monthlyRate a * (1 + monthlyRate a) ^ n) /
        ((1 + monthlyRate a) ^ n - 1) ∧
    fixedBalanceAfter P a n k =
      P * (1 + monthlyRate a) ^ k -
        fixedMonthlyPayment P a n * ((1 + monthlyRate a) ^ k - 1) /
          monthlyRate a ∧
    (∀ (Q : ℚ) (m : ℕ), fixedMonthlyPayment Q 0 m = Q / m) ∧
    |fixedMonthlyPayment 1000000 4 240 - 6059.80| ≤ 1 / 100 ∧
    |fixedBalanceAfter 1000000 4 240 120 - 598527.83| ≤ 1 / 100 := by
  refine ⟨?_, ?_, ?_, ?_, ?_⟩
  · rw [fixedMonthlyPayment]
    simp only [if_neg hr]
  · rw [fixedBalanceAfter]
    simp only [if_neg hr]
  · intro Q m
    rw [fixedMonthlyPayment, monthlyRate]
    norm_num
  · rw [abs_le]
    constructor <;> norm_num [fixedMonthlyPayment, monthlyRate]
  · rw [abs_le]
    constructor <;> norm_num [fixedBalanceAfter, fixedMonthlyPayment, monthlyRate]

/-- Witness for claim C3: the annuity formula instantiated at the concrete
loan (principal 1,000,000, 4% annual, 240 months). -/
theorem fixedLoan_annuity_witness :
    monthlyRate 4 ≠ 0 ∧
    fixedMonthlyPayment 1000000 4 240 =
      1000000 * (monthlyRate 4 * (1 + monthlyRate 4) ^ 240) /
        ((1 + monthlyRate 4) ^ 240 - 1) :=
  ⟨by norm_num [monthlyRate],
    (fixedLoan_annuity 1000000 4 240 120 (by norm_num [monthlyRate])).1⟩

end FPlan
